import Mathlib

/-!
Formal model of the ohpm-awesome crawler (`src/crawler.py`) and analyzer
(`src/analyzer.py`).

Strings are modelled as `List Char`.  Python's `str.lower` is modelled on the
ASCII range (the catalog keywords and all claim inputs are ASCII); Python's
`\w` word-character class is likewise modelled on the ASCII range
(alphanumeric or underscore).
-/

/-- Strings of the modelled program, as lists of characters. -/
abbrev Str := List Char

/-- Shorthand turning a Lean string literal into the `List Char` model. -/
def kw (s : String) : Str := s.toList

/-! ## Crawler data model (`src/crawler.py`) -/

/-- The `Package` dataclass of `crawler.py` (lines 19-34). -/
structure Package where
  name : Str
  description : Str
  org : Str
  packageType : Str
  latestVersion : Str
  latestPublishTime : Int
  license : Str
  authorName : Str
  publisherId : Str
  publisherName : Str
  authorPicUrl : Str
  likes : Int
  points : Int
  popularity : Int
deriving DecidableEq

/-- A raw registry record as it appears in a page's `rows` list: a JSON field
map in which every field the crawler reads may be missing (Python
`pkg_data.get(key, default)`). -/
structure RawRecord where
  name? : Option Str
  description? : Option Str
  org? : Option Str
  packageType? : Option Str
  latestVersion? : Option Str
  latestPublishTime? : Option Int
  license? : Option Str
  authorName? : Option Str
  publisherId? : Option Str
  publisherName? : Option Str
  authorPicUrl? : Option Str
  likes? : Option Int
  points? : Option Int
  popularity? : Option Int
deriving DecidableEq

/-- One element of a page's `rows` list: either a well-formed field map, or a
malformed entry (a non-dict JSON value, on which `pkg_data.get` raises and
`_process_page_data` logs a warning and continues). -/
inductive RawRow where
  | record (r : RawRecord)
  | malformed
deriving DecidableEq

/-- The `body` object of a search response: `pages`, `total` and `rows` keys,
each possibly missing. -/
structure PageBody where
  pages? : Option Nat
  total? : Option Nat
  rows? : Option (List RawRow)
deriving DecidableEq

/-- A parsed search response: a JSON object whose `body` key may be missing. -/
structure RespData where
  body? : Option PageBody
deriving DecidableEq

/-- The outcome of the network interaction for one page request, as
distinguished by `fetch_page` (crawler.py lines 71-98): a non-200 HTTP
status, a 200 response whose text is not JSON, a transport-level exception
(connection error or timeout), or a 200 response parsed into `data`. -/
inductive NetOutcome where
  | httpError (status : Nat)
  | jsonError
  | transportError
  | ok (data : RespData)
deriving DecidableEq

/-- Whether a network outcome is one of the three failure conditions. -/
def NetOutcome.isFailure : NetOutcome → Bool
  | .ok _ => false
  | _ => true

/-- A network environment: what the registry does for each page number. -/
abbrev Net := Nat → NetOutcome

/-- Model of `OHPMCrawler.fetch_page` (crawler.py lines 61-98).  On every
failure condition the function logs and returns the empty dict `{}`
(modelled as `none`); on success it returns the parsed response data. -/
def fetch_page (net : Net) (page_num : Nat) : Option RespData :=
  match net page_num with
  | .httpError _ => none
  | .jsonError => none
  | .transportError => none
  | .ok data => some data

/-- Model of the `Package(...)` construction inside `_process_page_data`
(crawler.py lines 148-163): every field is read with `get` and a default
(empty string for text fields, `0` for numeric fields). -/
def mkPackage (r : RawRecord) : Package :=
  ⟨r.name?.getD [], r.description?.getD [], r.org?.getD [], r.packageType?.getD [],
   r.latestVersion?.getD [], r.latestPublishTime?.getD 0, r.license?.getD [],
   r.authorName?.getD [], r.publisherId?.getD [], r.publisherName?.getD [],
   r.authorPicUrl?.getD [], r.likes?.getD 0, r.points?.getD 0, r.popularity?.getD 0⟩

/-- Model of `OHPMCrawler._process_page_data` (crawler.py lines 141-166),
returning the packages appended by one call.  A body without a `rows` key
contributes nothing; a well-formed row always yields a `Package` (the
constructor cannot fail once `get` succeeds); a malformed row raises inside
the `try`, is logged as a warning and skipped. -/
def process_page_data (pd : PageBody) : List Package :=
  match pd.rows? with
  | none => []
  | some rows => rows.filterMap fun row =>
      match row with
      | .record r => some (mkPackage r)
      | .malformed => none

/-- The one way `fetch_all_packages` can raise: `body_data['total']` on
crawler.py line 115 raises `KeyError` when the first page's body has a
`pages` key but no `total` key. -/
inductive CrawlError where
  | keyError
deriving DecidableEq

/-- The packages contributed by one non-first page in the result-processing
loop of `fetch_all_packages` (crawler.py lines 132-136): a result that is
empty or lacks a `body` key is skipped, otherwise its body is processed. -/
def pageMerge (net : Net) (p : Nat) : List Package :=
  match fetch_page net p with
  | some r =>
    match r.body? with
    | some b => process_page_data b
    | none => []
  | none => []

/-- Model of `OHPMCrawler.fetch_all_packages` (crawler.py lines 100-139).
The first page is fetched alone; if it is empty or lacks `body`, or its body
lacks `pages`, the function logs an error and returns the empty list.
Reading the `total` key may raise `KeyError`.  Otherwise the first page's
rows are processed, pages `2..total_pages` are fetched (concurrently in the
source; `asyncio.gather` preserves task order, so results are processed in
page order) and merged. -/
def fetch_all_packages (net : Net) : Except CrawlError (List Package) :=
  match fetch_page net 1 with
  | none => .ok []
  | some d =>
    match d.body? with
    | none => .ok []
    | some body =>
      match body.pages? with
      | none => .ok []
      | some total_pages =>
        match body.total? with
        | none => .error .keyError
        | some _ =>
          .ok (process_page_data body
                ++ ((List.range' 2 (total_pages - 1)).map (pageMerge net)).flatten)

/-- Number of records a crawl run hands back to its caller: the length of
the returned list, or zero when the run ends in an uncaught exception. -/
def crawlRecordCount : Except CrawlError (List Package) → Nat
  | .ok l => l.length
  | .error _ => 0

/-- The non-first pages whose fetch failed during a run, as logged by
`fetch_page`'s error branches.  This is derived from the network
environment, not from the value `fetch_all_packages` returns. -/
def collectFailedPages (net : Net) : List Nat :=
  match fetch_page net 1 with
  | none => []
  | some d =>
    match d.body? with
    | none => []
    | some body =>
      match body.pages? with
      | none => []
      | some total_pages =>
        (List.range' 2 (total_pages - 1)).filter fun p => (fetch_page net p).isNone

/-! ## Analyzer text model (`src/analyzer.py`) -/

/-- ASCII model of Python's `str.lower` on one character: the 26 upper-case
ASCII letters map to their lower-case forms, every other character is
unchanged. -/
def lowerChar (c : Char) : Char :=
  match c with
  | 'A' => 'a' | 'B' => 'b' | 'C' => 'c' | 'D' => 'd' | 'E' => 'e' | 'F' => 'f'
  | 'G' => 'g' | 'H' => 'h' | 'I' => 'i' | 'J' => 'j' | 'K' => 'k' | 'L' => 'l'
  | 'M' => 'm' | 'N' => 'n' | 'O' => 'o' | 'P' => 'p' | 'Q' => 'q' | 'R' => 'r'
  | 'S' => 's' | 'T' => 't' | 'U' => 'u' | 'V' => 'v' | 'W' => 'w' | 'X' => 'x'
  | 'Y' => 'y' | 'Z' => 'z'
  | c => c

/-- Model of Python `str.lower` on a whole string. -/
def toLowerStr (s : Str) : Str := s.map lowerChar

/-- Model of the `\w` word-character class of Python's `re` module, on the
ASCII range: letters, digits or underscore. -/
def isWordChar (c : Char) : Bool := c.isAlphanum || c == '_'

/-- The keyword `kw` occurs in `text` starting at index `i`. -/
def matchAt (kwd text : Str) (i : Nat) : Bool := (text.drop i).take kwd.length == kwd

/-- The keyword occurs at index `i` and the match is bounded on both sides by
a non-word character or a string edge: the model of a successful
`re.search(r'\b' + re.escape(keyword) + r'\b', text)` match at position `i`
(analyzer.py line 223; every catalog keyword consists of word characters, for
which `\b` means exactly this). -/
def wordMatchAt (kwd text : Str) (i : Nat) : Bool :=
  matchAt kwd text i
    && (i == 0 || !isWordChar (text.getD (i - 1) ' '))
    && (i + kwd.length == text.length || !isWordChar (text.getD (i + kwd.length) ' '))

/-- The keyword occurs somewhere in `text` as a whole word (the
`re.search` on analyzer.py line 223 succeeds). -/
def hasWholeWord (kwd text : Str) : Bool :=
  (List.range (text.length + 1)).any (wordMatchAt kwd text)

/-- The keyword occurs somewhere in `text` as a bare substring (Python
`keyword in text_features`, analyzer.py line 226). -/
def hasSub (kwd text : Str) : Bool :=
  (List.range (text.length + 1)).any (matchAt kwd text)

/-- The contribution of one keyword to a category's score (analyzer.py lines
222-227): 2 for a whole-word match, else 1 for a substring match, else 0. -/
def keywordScore (text kwd : Str) : Nat :=
  if hasWholeWord kwd text then 2 else if hasSub kwd text then 1 else 0

/-- A category's score for a text blob (analyzer.py lines 220-227): the inner
`for keyword in category.keywords` loop accumulating into `score`. -/
def categoryScore (keywords : List Str) (text : Str) : Nat :=
  keywords.foldl (fun score kwd => score + keywordScore text kwd) 0

/-- Worded from the spec: the keyword occurs as a whole word anywhere in the
blob, bounded by non-word characters or string edges — there is a
decomposition of the blob around the keyword whose left part does not end in
a word character and whose right part does not begin with one. -/
def SpecWholeWord (kwd text : Str) : Prop :=
  ∃ pre post, text = pre ++ kwd ++ post
    ∧ (∀ c, pre.getLast? = some c → isWordChar c = false)
    ∧ (∀ c, post.head? = some c → isWordChar c = false)

/-- Worded from the spec: the keyword occurs in the blob as a bare
substring. -/
def SpecSub (kwd text : Str) : Prop :=
  ∃ pre post, text = pre ++ kwd ++ post

/-! ## Analyzer package model and text blob -/

/-- The `keywords` value of a raw package dict as `_extract_text_features`
distinguishes it (analyzer.py lines 201-205): a list of strings, a plain
string, or anything else (including the `[]` default for a missing key,
which behaves as the empty list). -/
inductive KwField where
  | klist (ks : List Str)
  | kstr (s : Str)
  | other
deriving DecidableEq

/-- A package record as the analyzer reads it: only the fields
`_extract_text_features` and `categorize_packages` consult.  The `get`
defaults make a missing `name` or `description` behave as the empty
string, which the `Str` fields model directly. -/
structure APackage where
  name : Str
  description : Str
  keywords : KwField
deriving DecidableEq

/-- Model of `re.sub(r'^@[^/]+/', '', name)` (analyzer.py line 193): a
leading `@`, followed by at least one non-slash character, followed by the
first slash, is removed; any other string is unchanged. -/
def stripOrg (name : Str) : Str :=
  match name with
  | c :: rest =>
    if c = '@' then
      match rest.dropWhile (fun x => !(x == '/')) with
      | _ :: tail =>
        if (rest.takeWhile (fun x => !(x == '/'))).isEmpty then name else tail
      | [] => name
    else name
  | [] => name

/-- Model of `PackageAnalyzer._extract_text_features` (analyzer.py lines
186-207): lower-case the name, strip the organization prefix, lower-case the
description, lower-case any keywords (a whole list, or one non-empty plain
string), and join all parts with single spaces. -/
def extract_text_features (p : APackage) : Str :=
  let name := toLowerStr p.name
  let clean_name := stripOrg name
  let description := toLowerStr p.description
  let kwParts : List Str :=
    match p.keywords with
    | .klist ks => ks.map toLowerStr
    | .kstr s => if s.isEmpty then [] else [toLowerStr s]
    | .other => []
  List.intercalate [' '] ([clean_name, description] ++ kwParts)

/-- Worded from the spec: the searchable text blob is the lowercased package
name with any leading organization-prefix of the form `@org/` stripped,
concatenated with the lowercased description and any keyword fields (each
keyword lowercased), joined by spaces.  Here the prefix is stripped from the
raw name and the result lowercased, in the order the spec sentence reads. -/
def specTextBlob (p : APackage) : Str :=
  let nm := toLowerStr (stripOrg p.name)
  let kwParts : List Str :=
    match p.keywords with
    | .klist ks => ks.map toLowerStr
    | .kstr s => if s.isEmpty then [] else [toLowerStr s]
    | .other => []
  List.intercalate [' '] ([nm, toLowerStr p.description] ++ kwParts)

/-! ## Category catalog and classification -/

/-- The static data of one entry of `_define_categories` (analyzer.py lines
17-27): the `CategoryInfo` dataclass without its mutable `packages` list,
which is modelled as explicit state in `categorize_packages` below. -/
structure CategoryInfo where
  name : Str
  emoji : Str
  description : Str
  keywords : List Str
deriving DecidableEq

/-- A catalog: the `self.categories` dict as an ordered association list of
category id and definition (Python dicts preserve insertion order, so the
iteration order of `categorize_packages` is the fixed definition order). -/
abbrev Catalog := List (Str × CategoryInfo)

/-- One step of the best-category loop (analyzer.py lines 219-231): compute
the category's score and replace the running best only on strict
greater-than. -/
def bestStep (blob : Str) (best : Option Str × Nat) (entry : Str × CategoryInfo) :
    Option Str × Nat :=
  let score := categoryScore entry.2.keywords blob
  if best.2 < score then (some entry.1, score) else best

/-- The `(best_category, best_score)` pair after scoring every category of
the catalog for one package's blob, starting from `(None, 0)`. -/
def bestCategory (catalog : Catalog) (blob : Str) : Option Str × Nat :=
  catalog.foldl (bestStep blob) (none, 0)

/-- The category `categorize_packages` assigns to a package (analyzer.py
lines 233-238): the running best when its score reaches the minimum of 1,
otherwise none (the package goes to the uncategorized list). -/
def assignedCategory (catalog : Catalog) (p : APackage) : Option Str :=
  if 1 ≤ (bestCategory catalog (extract_text_features p)).2
  then (bestCategory catalog (extract_text_features p)).1
  else none

/-! ## Categorization state (`categorize_packages`) -/

/-- The mutable per-category package lists of the `CategoryInfo` dataclass,
as an ordered association list keyed by category id, together with the
`self.uncategorized` list. -/
structure CatState where
  buckets : List (Str × List APackage)
  uncategorized : List APackage
deriving DecidableEq

/-- Model of `self.categories[best_category].packages.append(package)`
(analyzer.py line 235): append the package to the bucket of the first entry
whose key matches. -/
def addToCategory : List (Str × List APackage) → Str → APackage → List (Str × List APackage)
  | [], _, _ => []
  | (k, ps) :: rest, c, p =>
    if k = c then (k, ps ++ [p]) :: rest else (k, ps) :: addToCategory rest c p

/-- One iteration of the outer package loop of `categorize_packages`
(analyzer.py lines 213-238): score every category, then either append to the
best category's list (score at least 1) or to the uncategorized list.  The
inner `none` branch is unreachable (a best score of at least 1 always comes
with a category; in Python it would be a `KeyError`). -/
def categorizeStep (catalog : Catalog) (st : CatState) (p : APackage) : CatState :=
  if 1 ≤ (bestCategory catalog (extract_text_features p)).2 then
    match (bestCategory catalog (extract_text_features p)).1 with
    | some c => ⟨addToCategory st.buckets c p, st.uncategorized⟩
    | none => st
  else ⟨st.buckets, st.uncategorized ++ [p]⟩

/-- Model of `PackageAnalyzer.categorize_packages` (analyzer.py lines
209-240) over a catalog and a package list, starting from the empty
per-category lists installed by `CategoryInfo.__post_init__` and the empty
`self.uncategorized`. -/
def categorize_packages (catalog : Catalog) (pkgs : List APackage) : CatState :=
  pkgs.foldl (categorizeStep catalog) ⟨catalog.map (fun e => (e.1, [])), []⟩

/-- Total number of packages held in the per-category lists. -/
def bucketCount (buckets : List (Str × List APackage)) : Nat :=
  (buckets.map (fun e => e.2.length)).sum

/-! ## The category catalog (`PackageAnalyzer._define_categories`,
analyzer.py lines 36-177).  Python set literals are transcribed in their
written order; a category's score is a sum over its keywords, so the
iteration order of the set does not affect any score. -/

/-- The `testing` catalog entry. -/
def testing_category : CategoryInfo :=
  ⟨kw "🧪 Testing & Quality Assurance", kw "🧪",
   kw "Testing frameworks, unit testing, automation testing, and quality assurance tools",
   [kw "test", kw "testing", kw "unit", kw "automation", kw "qa", kw "quality",
    kw "mock", kw "assertion", kw "hypium", kw "spec", kw "suite"]⟩

/-- The `ui_components` catalog entry. -/
def ui_components_category : CategoryInfo :=
  ⟨kw "🎨 UI Components & Design", kw "🎨",
   kw "UI components, design systems, layout tools, and visual elements",
   [kw "ui", kw "component", kw "design", kw "layout", kw "button", kw "dialog",
    kw "picker", kw "navigation", kw "tab", kw "grid", kw "list", kw "card",
    kw "menu", kw "banner", kw "toast", kw "loading", kw "refresh", kw "swipe",
    kw "slider", kw "input", kw "form", kw "calendar", kw "chart", kw "graph",
    kw "visual", kw "theme", kw "style", kw "animation", kw "transition", kw "gesture"]⟩

/-- The `utilities` catalog entry. -/
def utilities_category : CategoryInfo :=
  ⟨kw "🛠️ Utilities & Tools", kw "🛠️",
   kw "Utility libraries, helper functions, and development tools",
   [kw "util", kw "tool", kw "helper", kw "library", kw "common", kw "encrypt",
    kw "decrypt", kw "hash", kw "string", kw "date", kw "time", kw "regex",
    kw "validation", kw "format", kw "convert", kw "parse", kw "math",
    kw "algorithm", kw "collection", kw "array", kw "object", kw "json",
    kw "xml", kw "csv", kw "log", kw "debug", kw "performance", kw "cache",
    kw "storage", kw "file", kw "io"]⟩

/-- The `networking` catalog entry. -/
def networking_category : CategoryInfo :=
  ⟨kw "🌐 Networking & APIs", kw "🌐",
   kw "HTTP clients, API wrappers, networking libraries, and communication tools",
   [kw "http", kw "api", kw "request", kw "axios", kw "fetch", kw "network",
    kw "rest", kw "graphql", kw "websocket", kw "rpc", kw "grpc", kw "client",
    kw "server", kw "protocol", kw "communication", kw "socket", kw "tcp",
    kw "udp", kw "url", kw "endpoint", kw "oauth", kw "auth", kw "jwt"]⟩

/-- The `data_persistence` catalog entry. -/
def data_persistence_category : CategoryInfo :=
  ⟨kw "💾 Data & Storage", kw "💾",
   kw "Database libraries, data persistence, storage solutions, and data management",
   [kw "database", kw "db", kw "storage", kw "persistence", kw "sqlite",
    kw "sql", kw "orm", kw "model", kw "schema", kw "migration", kw "backup",
    kw "sync", kw "crud", kw "query", kw "transaction", kw "cache", kw "memory",
    kw "local", kw "cloud", kw "preference", kw "setting", kw "config"]⟩

/-- The `media` catalog entry. -/
def media_category : CategoryInfo :=
  ⟨kw "🎵 Media & Multimedia", kw "🎵",
   kw "Audio, video, image processing, camera, and multimedia handling",
   [kw "media", kw "audio", kw "video", kw "image", kw "photo", kw "camera",
    kw "player", kw "recorder", kw "music", kw "sound", kw "voice",
    kw "multimedia", kw "codec", kw "format", kw "stream", kw "play",
    kw "capture", kw "edit", kw "filter", kw "effect", kw "compress",
    kw "decode", kw "encode"]⟩

/-- The `location_maps` catalog entry. -/
def location_maps_category : CategoryInfo :=
  ⟨kw "📍 Location & Maps", kw "📍",
   kw "GPS, location services, maps, navigation, and geolocation features",
   [kw "location", kw "gps", kw "map", kw "navigation", kw "geo", kw "latitude",
    kw "longitude", kw "position", kw "coordinate", kw "route", kw "direction",
    kw "distance", kw "address", kw "place", kw "marker", kw "pin"]⟩

/-- The `sensors_hardware` catalog entry. -/
def sensors_hardware_category : CategoryInfo :=
  ⟨kw "📱 Sensors & Hardware", kw "📱",
   kw "Device sensors, hardware interfaces, and system capabilities",
   [kw "sensor", kw "hardware", kw "accelerometer", kw "gyroscope", kw "compass",
    kw "barometer", kw "fingerprint", kw "biometric", kw "nfc", kw "bluetooth",
    kw "wifi", kw "cellular", kw "battery", kw "vibration", kw "light",
    kw "proximity", kw "temperature", kw "pressure", kw "device", kw "system",
    kw "capability"]⟩

/-- The `security` catalog entry. -/
def security_category : CategoryInfo :=
  ⟨kw "🔒 Security & Encryption", kw "🔒",
   kw "Security libraries, encryption, authentication, and privacy tools",
   [kw "security", kw "encrypt", kw "decrypt", kw "cipher", kw "crypto",
    kw "hash", kw "hmac", kw "sha", kw "md5", kw "aes", kw "rsa", kw "ssl",
    kw "tls", kw "certificate", kw "key", kw "auth", kw "authentication",
    kw "authorization", kw "oauth", kw "jwt", kw "token", kw "password",
    kw "biometric", kw "privacy", kw "secure"]⟩

/-- The `navigation_routing` catalog entry. -/
def navigation_routing_category : CategoryInfo :=
  ⟨kw "🧭 Navigation & Routing", kw "🧭",
   kw "App navigation, routing, page transitions, and navigation patterns",
   [kw "navigation", kw "router", kw "route", kw "nav", kw "page", kw "screen",
    kw "transition", kw "stack", kw "tab", kw "drawer", kw "bottom",
    kw "sidebar", kw "breadcrumb", kw "history", kw "back", kw "forward",
    kw "deep", kw "link"]⟩

/-- The `state_management` catalog entry. -/
def state_management_category : CategoryInfo :=
  ⟨kw "🔄 State Management", kw "🔄",
   kw "State management solutions, data flow, and application state handling",
   [kw "state", kw "store", kw "redux", kw "flux", kw "observable",
    kw "reactive", kw "model", kw "data", kw "flow", kw "context",
    kw "provider", kw "inject", kw "dependency", kw "service", kw "singleton",
    kw "manager"]⟩

/-- The `internationalization` catalog entry. -/
def internationalization_category : CategoryInfo :=
  ⟨kw "🌍 Internationalization & Localization", kw "🌍",
   kw "i18n, l10n, multi-language support, and localization tools",
   [kw "i18n", kw "l10n", kw "international", kw "localization", kw "locale",
    kw "language", kw "translation", kw "translate", kw "multilingual",
    kw "region", kw "country", kw "currency", kw "timezone", kw "format",
    kw "culture"]⟩

/-- The `animation` catalog entry. -/
def animation_category : CategoryInfo :=
  ⟨kw "✨ Animation & Effects", kw "✨",
   kw "Animation libraries, visual effects, transitions, and motion design",
   [kw "animation", kw "animate", kw "transition", kw "effect", kw "motion",
    kw "tween", kw "spring", kw "easing", kw "interpolation", kw "keyframe",
    kw "timeline", kw "transform", kw "scale", kw "rotate", kw "fade",
    kw "slide", kw "bounce", kw "elastic", kw "cubic", kw "bezier"]⟩

/-- The `game_graphics` catalog entry. -/
def game_graphics_category : CategoryInfo :=
  ⟨kw "🎮 Gaming & Graphics", kw "🎮",
   kw "Game development, 3D graphics, rendering, and interactive experiences",
   [kw "game", kw "gaming", kw "3d", kw "2d", kw "graphics", kw "render",
    kw "canvas", kw "webgl", kw "opengl", kw "shader", kw "texture", kw "mesh",
    kw "scene", kw "physics", kw "collision", kw "engine", kw "sprite",
    kw "particle", kw "lighting", kw "material"]⟩

/-- The `social_sharing` catalog entry. -/
def social_sharing_category : CategoryInfo :=
  ⟨kw "📤 Social & Sharing", kw "📤",
   kw "Social media integration, sharing capabilities, and social features",
   [kw "social", kw "share", kw "sharing", kw "wechat", kw "weibo", kw "qq",
    kw "facebook", kw "twitter", kw "instagram", kw "linkedin", kw "whatsapp",
    kw "telegram", kw "discord", kw "chat", kw "message", kw "comment",
    kw "like", kw "follow", kw "friend"]⟩

/-- The `ecommerce_payment` catalog entry. -/
def ecommerce_payment_category : CategoryInfo :=
  ⟨kw "💰 E-commerce & Payment", kw "💰",
   kw "Payment processing, e-commerce features, and financial integrations",
   [kw "payment", kw "pay", kw "alipay", kw "wechatpay", kw "bank", kw "card",
    kw "wallet", kw "money", kw "currency", kw "price", kw "order", kw "cart",
    kw "shop", kw "store", kw "product", kw "checkout", kw "invoice",
    kw "receipt", kw "transaction", kw "finance", kw "billing"]⟩

/-- The `ar_vr` catalog entry. -/
def ar_vr_category : CategoryInfo :=
  ⟨kw "🥽 AR/VR & Immersive", kw "🥽",
   kw "Augmented reality, virtual reality, and immersive technologies",
   [kw "ar", kw "vr", kw "augmented", kw "virtual", kw "reality",
    kw "immersive", kw "360", kw "panorama", kw "spatial", kw "tracking",
    kw "marker", kw "recognition", kw "overlay", kw "hologram", kw "mixed"]⟩

/-- The `ai_ml` catalog entry. -/
def ai_ml_category : CategoryInfo :=
  ⟨kw "🤖 AI & Machine Learning", kw "🤖",
   kw "Artificial intelligence, machine learning, and smart features",
   [kw "ai", kw "ml", kw "machine", kw "learning", kw "neural", kw "network",
    kw "deep", kw "model", kw "prediction", kw "classification",
    kw "recognition", kw "detection", kw "ocr", kw "nlp", kw "computer",
    kw "vision", kw "tensorflow", kw "pytorch", kw "opencv", kw "intelligent",
    kw "smart", kw "algorithm"]⟩

/-- The `iot` catalog entry. -/
def iot_category : CategoryInfo :=
  ⟨kw "🏠 IoT & Smart Devices", kw "🏠",
   kw "Internet of Things, smart home, and connected device integration",
   [kw "iot", kw "smart", kw "home", kw "device", kw "connected", kw "sensor",
    kw "automation", kw "control", kw "monitor", kw "remote", kw "wireless",
    kw "protocol", kw "gateway", kw "hub", kw "cloud", kw "edge", kw "mesh",
    kw "zigbee", kw "mqtt"]⟩

/-- The `productivity` catalog entry. -/
def productivity_category : CategoryInfo :=
  ⟨kw "📊 Productivity & Business", kw "📊",
   kw "Productivity tools, business applications, and enterprise solutions",
   [kw "productivity", kw "business", kw "enterprise", kw "office",
    kw "document", kw "pdf", kw "excel", kw "word", kw "presentation",
    kw "calendar", kw "schedule", kw "task", kw "project", kw "workflow",
    kw "crm", kw "erp", kw "report", kw "analytics", kw "dashboard",
    kw "chart", kw "graph", kw "statistics"]⟩

/-- The `education` catalog entry. -/
def education_category : CategoryInfo :=
  ⟨kw "📚 Education & Learning", kw "📚",
   kw "Educational apps, learning platforms, and academic tools",
   [kw "education", kw "learning", kw "study", kw "course", kw "lesson",
    kw "tutorial", kw "quiz", kw "exam", kw "test", kw "grade", kw "student",
    kw "teacher", kw "school", kw "university", kw "academic", kw "knowledge",
    kw "skill", kw "training", kw "certification"]⟩

/-- The `health_fitness` catalog entry. -/
def health_fitness_category : CategoryInfo :=
  ⟨kw "💪 Health & Fitness", kw "💪",
   kw "Health monitoring, fitness tracking, and wellness applications",
   [kw "health", kw "fitness", kw "medical", kw "wellness", kw "exercise",
    kw "workout", kw "sport", kw "heart", kw "rate", kw "step", kw "calorie",
    kw "sleep", kw "weight", kw "bmi", kw "nutrition", kw "diet",
    kw "medicine", kw "hospital", kw "doctor", kw "patient", kw "therapy"]⟩

/-- The `communication` catalog entry. -/
def communication_category : CategoryInfo :=
  ⟨kw "💬 Communication & Messaging", kw "💬",
   kw "Chat, messaging, voice/video calls, and communication tools",
   [kw "chat", kw "message", kw "messaging", kw "communication", kw "call",
    kw "voice", kw "video", kw "conference", kw "meeting", kw "talk",
    kw "conversation", kw "notification", kw "push", kw "email", kw "sms",
    kw "im", kw "instant"]⟩

/-- The full catalog returned by `_define_categories`, in the dict's
insertion order. -/
def categories : Catalog :=
  [(kw "testing", testing_category),
   (kw "ui_components", ui_components_category),
   (kw "utilities", utilities_category),
   (kw "networking", networking_category),
   (kw "data_persistence", data_persistence_category),
   (kw "media", media_category),
   (kw "location_maps", location_maps_category),
   (kw "sensors_hardware", sensors_hardware_category),
   (kw "security", security_category),
   (kw "navigation_routing", navigation_routing_category),
   (kw "state_management", state_management_category),
   (kw "internationalization", internationalization_category),
   (kw "animation", animation_category),
   (kw "game_graphics", game_graphics_category),
   (kw "social_sharing", social_sharing_category),
   (kw "ecommerce_payment", ecommerce_payment_category),
   (kw "ar_vr", ar_vr_category),
   (kw "ai_ml", ai_ml_category),
   (kw "iot", iot_category),
   (kw "productivity", productivity_category),
   (kw "education", education_category),
   (kw "health_fitness", health_fitness_category),
   (kw "communication", communication_category)]

/-! ## Concrete network environments for the crawler claims -/

/-- A well-formed raw record used by concrete runs. -/
def sampleRaw : RawRecord :=
  ⟨some (kw "@demo/pkg"), some (kw "a package"), none, none, none, none, none,
   none, none, none, none, none, none, none⟩

/-- A first-page body announcing two pages in total and carrying one row. -/
def bodyPage1 : PageBody := ⟨some 2, some 1, some [RawRow.record sampleRaw]⟩

/-- Network on which page 1 succeeds and every other page times out. -/
def netFailPage2 : Net :=
  fun p => if p = 1 then .ok ⟨some bodyPage1⟩ else .transportError

/-- Network on which page 1 succeeds and every other page returns a
successful response carrying no rows. -/
def netEmptyPage2 : Net :=
  fun p => if p = 1 then .ok ⟨some bodyPage1⟩ else .ok ⟨some ⟨some 2, some 1, some []⟩⟩

/-- Network on which every request suffers a transport failure. -/
def netDown : Net := fun _ => .transportError

/-- Network on which every request gets an HTTP 500 response. -/
def netHttp500 : Net := fun _ => .httpError 500

/-- Whether a row is a well-formed field map. -/
def RawRow.isRecord : RawRow → Bool
  | .record _ => true
  | .malformed => false

/-! ## C7 — first-page failure aborts with no records -/

/-- C7: for every run in which fetching page 1 fails, or page 1's body is
missing, or the body lacks the pagination metadata (`pages`, or `total`,
whose absence raises an uncaught `KeyError`), the collection aborts and no
records from any page are returned. -/
theorem firstPage_failure_no_records (net : Net)
    (h : fetch_page net 1 = none
       ∨ (∃ d, fetch_page net 1 = some d ∧ d.body? = none)
       ∨ (∃ d b, fetch_page net 1 = some d ∧ d.body? = some b
            ∧ (b.pages? = none ∨ b.total? = none))) :
    crawlRecordCount (fetch_all_packages net) = 0 := by
  unfold fetch_all_packages
  rcases h with h | ⟨d, hd, hb⟩ | ⟨d, b, hd, hb, hpt⟩
  · rw [h]; rfl
  · simp only [hd, hb]; rfl
  · rcases hpt with hp | ht
    · simp only [hd, hb, hp]; rfl
    · simp only [hd, hb, ht]
      cases b.pages? <;> rfl

/-- Witness for C7: on a network where every request times out, fetching
page 1 fails and the run returns zero records. -/
theorem firstPage_failure_no_records_witness :
    fetch_page netDown 1 = none ∧ crawlRecordCount (fetch_all_packages netDown) = 0 :=
  ⟨rfl, firstPage_failure_no_records netDown (Or.inl rfl)⟩

/-! ## C2 — the collector's return value and the failure list -/

/-- The number of entries in a fetched page's `rows` list — the page's raw
row count — zero when the page was not successfully fetched or its body has
no rows. -/
def pageRowCount (net : Net) (p : Nat) : Nat :=
  match fetch_page net p with
  | some r =>
    match r.body? with
    | some b =>
      match b.rows? with
      | some rows => rows.length
      | none => 0
    | none => 0
  | none => 0

/-- A single-page body (`pages = 1`) whose two rows include one malformed
entry. -/
def bodyMalformedRow : PageBody :=
  ⟨some 1, some 2, some [RawRow.record sampleRaw, RawRow.malformed]⟩

/-- Network whose only page is fetched successfully but carries a malformed
row among its two rows. -/
def netMalformedRow : Net :=
  fun p => if p = 1 then .ok ⟨some bodyMalformedRow⟩ else .transportError

/-- C2 counterexample, refuting both parts of the claimed contract.  First,
a run in which page 2 fails and a run in which page 2 succeeds with zero
rows return the very same value, although their failed non-first pages
differ ([2] against []): the value `fetch_all_packages` returns cannot
contain the list of page failures, so no `(snapshot, page failures)` pair is
returned — the code returns the merged package list only and merely logs
failures.  Second, on a run whose single page is fetched successfully with
two rows, one malformed, the merged result holds 1 record while the row
counts of the successfully fetched pages sum to 2: the merged size does not
equal the sum of the fetched pages' row counts, only the sum of the rows
each page retains. -/
theorem fetch_all_no_failure_list_counterexample :
    (fetch_all_packages netFailPage2 = fetch_all_packages netEmptyPage2
      ∧ collectFailedPages netFailPage2 ≠ collectFailedPages netEmptyPage2)
    ∧ (crawlRecordCount (fetch_all_packages netMalformedRow) = 1
      ∧ pageRowCount netMalformedRow 1
          + ((List.range' 2 (1 - 1)).map (pageRowCount netMalformedRow)).sum = 2
      ∧ crawlRecordCount (fetch_all_packages netMalformedRow)
          ≠ pageRowCount netMalformedRow 1
            + ((List.range' 2 (1 - 1)).map (pageRowCount netMalformedRow)).sum) := by
  refine ⟨⟨rfl, ?_⟩, ?_, ?_, ?_⟩ <;> decide

/-- C2 as amended: when the first page succeeds and carries the pagination
metadata, the collector returns the merged snapshot alone; its size is the
sum, over the successfully fetched pages, of the rows each page retains
(malformed rows are dropped, so this can fall below the raw row count); a
failed non-first page contributes zero records and appears in the logged
failure list; and no non-first-page failure aborts the collection (the
result is the merged `.ok` list whatever pages 2.. do). -/
theorem fetch_all_merge_size (net : Net) (d : RespData) (b : PageBody) (tp tot : Nat)
    (h1 : fetch_page net 1 = some d) (h2 : d.body? = some b)
    (h3 : b.pages? = some tp) (h4 : b.total? = some tot) :
    fetch_all_packages net
      = .ok (process_page_data b ++ ((List.range' 2 (tp - 1)).map (pageMerge net)).flatten)
    ∧ crawlRecordCount (fetch_all_packages net)
        = (process_page_data b).length
          + ((List.range' 2 (tp - 1)).map (fun p => (pageMerge net p).length)).sum
    ∧ (∀ p, fetch_page net p = none → pageMerge net p = [])
    ∧ (∀ p ∈ List.range' 2 (tp - 1), fetch_page net p = none → p ∈ collectFailedPages net) := by
  have hres : fetch_all_packages net
      = .ok (process_page_data b ++ ((List.range' 2 (tp - 1)).map (pageMerge net)).flatten) := by
    unfold fetch_all_packages
    simp only [h1, h2, h3, h4]
  refine ⟨hres, ?_, ?_, ?_⟩
  · rw [hres]
    simp only [crawlRecordCount, List.length_append, List.length_flatten, List.map_map]
    rfl
  · intro p hp
    unfold pageMerge
    rw [hp]
  · intro p hmem hp
    unfold collectFailedPages
    simp only [h1, h2, h3]
    rw [List.mem_filter]
    exact ⟨hmem, by rw [hp]; rfl⟩

/-- Witness for C2: a concrete run whose first page succeeds with pagination
metadata, exercising the amended collector contract. -/
theorem fetch_all_merge_size_witness :
    (fetch_page netFailPage2 1 = some ⟨some bodyPage1⟩
      ∧ RespData.body? ⟨some bodyPage1⟩ = some bodyPage1
      ∧ bodyPage1.pages? = some 2 ∧ bodyPage1.total? = some 1)
    ∧ (fetch_all_packages netFailPage2
        = .ok (process_page_data bodyPage1
            ++ ((List.range' 2 (2 - 1)).map (pageMerge netFailPage2)).flatten)
      ∧ crawlRecordCount (fetch_all_packages netFailPage2)
          = (process_page_data bodyPage1).length
            + ((List.range' 2 (2 - 1)).map (fun p => (pageMerge netFailPage2 p).length)).sum
      ∧ (∀ p, fetch_page netFailPage2 p = none → pageMerge netFailPage2 p = [])
      ∧ (∀ p ∈ List.range' 2 (2 - 1), fetch_page netFailPage2 p = none
           → p ∈ collectFailedPages netFailPage2)) :=
  ⟨⟨rfl, rfl, rfl, rfl⟩,
   fetch_all_merge_size netFailPage2 ⟨some bodyPage1⟩ bodyPage1 2 1 rfl rfl rfl rfl⟩

/-! ## C3 — failure values of `fetch_page` -/

/-- C3 counterexample: no function can read the failing page number back off
the value `fetch_page` returns on failure, because every failure — any page
number, any cause — returns the same empty dict.  The claimed tagged failure
value carrying the page number and the cause does not exist. -/
theorem fetch_page_untagged_counterexample :
    ¬ ∃ pageOf : Option RespData → Nat,
        ∀ (net : Net) (p : Nat), (net p).isFailure = true → pageOf (fetch_page net p) = p := by
  rintro ⟨pageOf, hp⟩
  have h5 : pageOf none = 5 := hp netHttp500 5 rfl
  have h7 : pageOf none = 7 := hp netDown 7 rfl
  omega

/-- C3 as amended: on every failure condition — non-success HTTP status,
malformed payload, transport failure or timeout — `fetch_page` returns the
empty dict and never lets an exception cross the component boundary; the
returned value is untagged, carrying neither the page number nor the cause
(both are only logged). -/
theorem fetch_page_failure_returns_empty (net : Net) (p : Nat)
    (h : (net p).isFailure = true) : fetch_page net p = none := by
  unfold fetch_page
  cases hn : net p
  case ok d => rw [hn] at h; simp [NetOutcome.isFailure] at h
  all_goals rfl

/-- Witness for C3: a timed-out request for page 3 is a failure condition
and yields the empty dict. -/
theorem fetch_page_failure_returns_empty_witness :
    (netDown 3).isFailure = true ∧ fetch_page netDown 3 = none :=
  ⟨rfl, fetch_page_failure_returns_empty netDown 3 rfl⟩

/-! ## C1 — what the normalizer retains -/

/-- A raw record with every field missing: its mapped name is the empty
string. -/
def emptyNameRaw : RawRecord :=
  ⟨none, none, none, none, none, none, none, none, none, none, none, none, none, none⟩

/-- A page whose single row maps to a `Package` with an empty name. -/
def pageEmptyName : PageBody := ⟨some 1, some 1, some [RawRow.record emptyNameRaw]⟩

/-- C1 counterexample: a raw record whose name is empty after mapping is
retained, not dropped — the processed page keeps a `Package` whose `name` is
the empty string, so not every retained `Package` has a non-empty name. -/
theorem process_retains_empty_name_counterexample :
    ¬ (∀ p ∈ process_page_data pageEmptyName, p.name ≠ []) := by decide

/-- Helper: the number of packages a row list yields equals its number of
well-formed rows. -/
theorem filterMap_rows_length (rows : List RawRow) :
    (rows.filterMap fun row =>
        match row with
        | RawRow.record r => some (mkPackage r)
        | RawRow.malformed => none).length
      = rows.countP RawRow.isRecord := by
  induction rows with
  | nil => rfl
  | cons row rest ih =>
    cases row <;>
      simp [List.filterMap_cons, List.countP_cons, RawRow.isRecord, ih]

/-- C1 as amended: the normalizer retains a raw record exactly when it is a
well-formed field map — a malformed row is dropped with a warning and the
crawl continues, while every well-formed row is retained, its missing fields
(the name included) defaulting to empty values; an empty mapped name does
not cause a drop. -/
theorem process_page_retains_wellformed (pd : PageBody) (rows : List RawRow)
    (h : pd.rows? = some rows) :
    (process_page_data pd).length = rows.countP RawRow.isRecord
    ∧ ∀ r : RawRecord, RawRow.record r ∈ rows → mkPackage r ∈ process_page_data pd := by
  have hpd : process_page_data pd
      = rows.filterMap fun row =>
          match row with
          | RawRow.record r => some (mkPackage r)
          | RawRow.malformed => none := by
    unfold process_page_data
    rw [h]
  constructor
  · rw [hpd]
    exact filterMap_rows_length rows
  · intro r hr
    rw [hpd]
    simp only [List.mem_filterMap]
    exact ⟨RawRow.record r, hr, rfl⟩

/-- Witness for C1: on the concrete one-row page above, the retained count
equals the well-formed row count and the (empty-named) package is kept. -/
theorem process_page_retains_wellformed_witness :
    pageEmptyName.rows? = some [RawRow.record emptyNameRaw]
    ∧ ((process_page_data pageEmptyName).length
         = [RawRow.record emptyNameRaw].countP RawRow.isRecord
       ∧ ∀ r : RawRecord, RawRow.record r ∈ [RawRow.record emptyNameRaw]
           → mkPackage r ∈ process_page_data pageEmptyName) :=
  ⟨rfl, process_page_retains_wellformed pageEmptyName [RawRow.record emptyNameRaw] rfl⟩

/-! ## The best-category fold (C4, C6) -/

/-- Characterization of the strict greater-than best-tracking fold of
`categorize_packages`: either no category's score exceeds the accumulator,
which is then returned unchanged, or the fold returns the first category
whose score exceeds the accumulator and every earlier category scores
strictly below it while no later category scores above it. -/
theorem bestFold_characterization (blob : Str) (l : Catalog) (acc : Option Str × Nat) :
    (l.foldl (bestStep blob) acc = acc
      ∧ ∀ e ∈ l, categoryScore e.2.keywords blob ≤ acc.2)
    ∨ (∃ pre c info post, l = pre ++ (c, info) :: post
        ∧ l.foldl (bestStep blob) acc = (some c, categoryScore info.keywords blob)
        ∧ acc.2 < categoryScore info.keywords blob
        ∧ (∀ e ∈ pre, categoryScore e.2.keywords blob < categoryScore info.keywords blob)
        ∧ (∀ e ∈ post, categoryScore e.2.keywords blob ≤ categoryScore info.keywords blob)) := by
  induction l generalizing acc with
  | nil => exact Or.inl ⟨rfl, by simp⟩
  | cons e rest ih =>
    by_cases hc : acc.2 < categoryScore e.2.keywords blob
    · have hstep : bestStep blob acc e = (some e.1, categoryScore e.2.keywords blob) := by
        unfold bestStep
        rw [if_pos hc]
      rcases ih (some e.1, categoryScore e.2.keywords blob) with
        ⟨hres, hall⟩ | ⟨pre, c, info, post, hl, hres, hgt, hpre, hpost⟩
      · right
        refine ⟨[], e.1, e.2, rest, by simp, ?_, hc, by simp, fun x hx => hall x hx⟩
        rw [List.foldl_cons, hstep, hres]
      · right
        refine ⟨e :: pre, c, info, post, by rw [hl, List.cons_append], ?_, lt_trans hc hgt, ?_,
          hpost⟩
        · rw [List.foldl_cons, hstep, hres]
        · intro x hx
          rcases List.mem_cons.1 hx with hx | hx
          · rw [hx]; exact hgt
          · exact hpre x hx
    · have hstep : bestStep blob acc e = acc := by
        unfold bestStep
        rw [if_neg hc]
      push_neg at hc
      rcases ih acc with
        ⟨hres, hall⟩ | ⟨pre, c, info, post, hl, hres, hgt, hpre, hpost⟩
      · left
        refine ⟨by rw [List.foldl_cons, hstep, hres], ?_⟩
        intro x hx
        rcases List.mem_cons.1 hx with hx | hx
        · rw [hx]; exact hc
        · exact hall x hx
      · right
        refine ⟨e :: pre, c, info, post, by rw [hl, List.cons_append], ?_, hgt, ?_, hpost⟩
        · rw [List.foldl_cons, hstep, hres]
        · intro x hx
          rcases List.mem_cons.1 hx with hx | hx
          · rw [hx]; exact lt_of_le_of_lt hc hgt
          · exact hpre x hx

/-- Property worded from the claim: `c` labels the first catalog entry
achieving the maximal score for the blob — every entry before it scores
strictly less, and no entry after it scores more. -/
def IsFirstArgmax (catalog : Catalog) (blob : Str) (c : Str) : Prop :=
  ∃ pre info post, catalog = pre ++ (c, info) :: post
    ∧ (∀ e ∈ pre, categoryScore e.2.keywords blob < categoryScore info.keywords blob)
    ∧ (∀ e ∈ post, categoryScore e.2.keywords blob ≤ categoryScore info.keywords blob)

/-- C4: whenever the classifier assigns a category to a package, it assigns
the category appearing first in the catalog's iteration order among those
achieving the maximal score: the maximum is tracked with strict greater-than
comparison, so a later category with an equal score never replaces the
running best. -/
theorem assigned_first_argmax (catalog : Catalog) (p : APackage) (c : Str)
    (h : assignedCategory catalog p = some c) :
    IsFirstArgmax catalog (extract_text_features p) c := by
  unfold assignedCategory bestCategory at h
  rcases bestFold_characterization (extract_text_features p) catalog (none, 0) with
    ⟨hres, _⟩ | ⟨pre, c', info, post, hl, hres, _, hpre, hpost⟩
  · rw [hres] at h
    simp at h
  · rw [hres] at h
    by_cases hs : 1 ≤ categoryScore info.keywords (extract_text_features p)
    · rw [if_pos hs] at h
      have hc : c' = c := by exact Option.some.inj h
      exact ⟨pre, info, post, by rw [← hc]; exact hl, hpre, hpost⟩
    · rw [if_neg hs] at h
      cases h

/-- A first category carrying the single keyword `x`. -/
def catInfoX : CategoryInfo := ⟨kw "First", kw "", kw "first tied category", [kw "x"]⟩

/-- A second category carrying the same single keyword `x`. -/
def catInfoY : CategoryInfo := ⟨kw "Second", kw "", kw "second tied category", [kw "x"]⟩

/-- A two-entry catalog whose categories score identically on `tiePkg`. -/
def tieCatalog : Catalog := [(kw "first_cat", catInfoX), (kw "second_cat", catInfoY)]

/-- A package on which both categories of `tieCatalog` score 2. -/
def tiePkg : APackage := ⟨kw "x", kw "", KwField.klist []⟩

/-- Witness for C4: on a two-category tie the classifier assigns the
category listed first. -/
theorem assigned_first_argmax_witness :
    assignedCategory tieCatalog tiePkg = some (kw "first_cat")
    ∧ categoryScore catInfoX.keywords (extract_text_features tiePkg)
        = categoryScore catInfoY.keywords (extract_text_features tiePkg)
    ∧ IsFirstArgmax tieCatalog (extract_text_features tiePkg) (kw "first_cat") :=
  ⟨by decide, by decide,
   assigned_first_argmax tieCatalog tiePkg (kw "first_cat") (by decide)⟩

/-- C6: the classifier assigns a category exactly when some category scores
at least 1 for the package — a package scoring 0 against every category is
always marked uncategorized, and one with any category score of at least 1
is always assigned. -/
theorem assigned_iff_positive_score (catalog : Catalog) (p : APackage) :
    (assignedCategory catalog p).isSome
      = catalog.any fun e =>
          decide (1 ≤ categoryScore e.2.keywords (extract_text_features p)) := by
  unfold assignedCategory bestCategory
  rcases bestFold_characterization (extract_text_features p) catalog (none, 0) with
    ⟨hres, hall⟩ | ⟨pre, c, info, post, hl, hres, hgt, hpre, hpost⟩
  · rw [hres, if_neg (by simp)]
    simp only [Option.isSome_none]
    symm
    simp only [List.any_eq_false, decide_eq_true_eq]
    intro e he
    have := hall e he
    simp only [Prod.snd] at this
    omega
  · rw [hres, if_pos (by simp only [Prod.snd] at hgt ⊢; omega)]
    simp only [Option.isSome_some]
    symm
    rw [List.any_eq_true]
    refine ⟨(c, info), ?_, by simp only [decide_eq_true_eq]; simp only [Prod.snd] at hgt; omega⟩
    rw [hl]
    exact List.mem_append_right _ (List.mem_cons_self _ _)

/-! ## C10 — categorization partitions the package list -/

/-- Appending into a bucket list does not change its keys. -/
theorem addToCategory_keys (bs : List (Str × List APackage)) (c : Str) (p : APackage) :
    (addToCategory bs c p).map Prod.fst = bs.map Prod.fst := by
  induction bs with
  | nil => rfl
  | cons e rest ih =>
    rcases e with ⟨k, ps⟩
    unfold addToCategory
    by_cases hk : k = c
    · rw [if_pos hk]
      rfl
    · rw [if_neg hk]
      simp only [List.map_cons, ih]

/-- Appending into a bucket list under a present key grows the total count
by exactly one. -/
theorem addToCategory_count (bs : List (Str × List APackage)) (c : Str) (p : APackage)
    (h : c ∈ bs.map Prod.fst) :
    bucketCount (addToCategory bs c p) = bucketCount bs + 1 := by
  induction bs with
  | nil => simp at h
  | cons e rest ih =>
    rcases e with ⟨k, ps⟩
    unfold addToCategory
    by_cases hk : k = c
    · rw [if_pos hk]
      simp only [bucketCount, List.map_cons, List.sum_cons, List.length_append,
        List.length_cons, List.length_nil]
      omega
    · rw [if_neg hk]
      have hmem : c ∈ rest.map Prod.fst := by
        rcases List.mem_cons.1 h with h' | h'
        · exact absurd h'.symm hk
        · exact h'
      simp only [bucketCount, List.map_cons, List.sum_cons] at ih ⊢
      rw [ih hmem]
      omega

/-- When the best-category fold ends on `some c`, the label comes from the
accumulator or from the catalog. -/
theorem bestFold_some_mem (blob : Str) (l : Catalog) (acc : Option Str × Nat) (c : Str)
    (h : (l.foldl (bestStep blob) acc).1 = some c) :
    acc.1 = some c ∨ c ∈ l.map Prod.fst := by
  induction l generalizing acc with
  | nil => exact Or.inl h
  | cons e rest ih =>
    rw [List.foldl_cons] at h
    rcases ih (bestStep blob acc e) h with h' | h'
    · unfold bestStep at h'
      by_cases hc : acc.2 < categoryScore e.2.keywords blob
      · rw [if_pos hc] at h'
        right
        simp only [Prod.fst] at h'
        rw [List.map_cons]
        exact (Option.some.inj h') ▸ List.mem_cons_self _ _
      · rw [if_neg hc] at h'
        exact Or.inl h'
    · right
      exact List.mem_cons_of_mem _ h'

/-- One categorization step adds the package to exactly one list — a
category bucket or the uncategorized list — growing the combined count by
one and preserving the bucket keys. -/
theorem categorizeStep_count (catalog : Catalog) (st : CatState) (p : APackage)
    (hkeys : st.buckets.map Prod.fst = catalog.map Prod.fst) :
    (bucketCount (categorizeStep catalog st p).buckets
        + (categorizeStep catalog st p).uncategorized.length
      = bucketCount st.buckets + st.uncategorized.length + 1)
    ∧ (categorizeStep catalog st p).buckets.map Prod.fst = catalog.map Prod.fst := by
  unfold categorizeStep
  by_cases hs : 1 ≤ (bestCategory catalog (extract_text_features p)).2
  · rw [if_pos hs]
    cases hb : (bestCategory catalog (extract_text_features p)).1 with
    | none =>
      exfalso
      unfold bestCategory at hs hb
      rcases bestFold_characterization (extract_text_features p) catalog (none, 0) with
        ⟨hres, _⟩ | ⟨pre, c, info, post, _, hres, _, _, _⟩
      · rw [hres] at hs
        simp at hs
      · rw [hres] at hb
        cases hb
    | some c =>
      have hmem : c ∈ catalog.map Prod.fst := by
        unfold bestCategory at hb
        rcases bestFold_some_mem (extract_text_features p) catalog (none, 0) c hb with h' | h'
        · cases h'
        · exact h'
      constructor
      · simp only
        rw [addToCategory_count st.buckets c p (by rw [hkeys]; exact hmem)]
        omega
      · simp only
        rw [addToCategory_keys]
        exact hkeys
  · rw [if_neg hs]
    exact ⟨by simp only [List.length_append, List.length_cons, List.length_nil]; omega, hkeys⟩

/-- C10: after classification every input package sits in exactly one
category bucket or in the uncategorized list, so the total bucket count plus
the uncategorized count equals the number of input packages. -/
theorem categorize_partition (catalog : Catalog) (pkgs : List APackage) :
    bucketCount (categorize_packages catalog pkgs).buckets
      + (categorize_packages catalog pkgs).uncategorized.length = pkgs.length := by
  have hgen : ∀ st : CatState, st.buckets.map Prod.fst = catalog.map Prod.fst →
      bucketCount (pkgs.foldl (categorizeStep catalog) st).buckets
        + (pkgs.foldl (categorizeStep catalog) st).uncategorized.length
      = bucketCount st.buckets + st.uncategorized.length + pkgs.length := by
    induction pkgs with
    | nil =>
      intro st _
      simp
    | cons p rest ih =>
      intro st hkeys
      rw [List.foldl_cons]
      have hstep := categorizeStep_count catalog st p hkeys
      rw [ih _ hstep.2, hstep.1]
      simp only [List.length_cons]
      omega
  have h0 := hgen ⟨catalog.map (fun e => (e.1, [])), []⟩
    (by simp only [List.map_map]; rfl)
  unfold categorize_packages
  rw [h0]
  simp only [bucketCount, List.map_map, List.length_nil]
  have : ∀ l : Catalog, ((l.map ((fun e => e.2.length) ∘ fun e => (e.1, ([] : List APackage)))).sum) = 0 := by
    intro l
    induction l with
    | nil => rfl
    | cons e rest ih => simp [ih]
  rw [this catalog]
  omega

/-! ## Whole-word and substring matching (C5) -/

/-- Unfolding of a successful position match. -/
theorem matchAt_eq (kwd text : Str) (i : Nat) :
    matchAt kwd text i = true ↔ (text.drop i).take kwd.length = kwd := by
  simp [matchAt]

/-- A position match inside the text bounds yields a decomposition of the
text around the keyword. -/
theorem decomp_of_matchAt (kwd text : Str) (i : Nat) (hi : i ≤ text.length)
    (h : (text.drop i).take kwd.length = kwd) :
    text = text.take i ++ kwd ++ text.drop (i + kwd.length)
      ∧ i + kwd.length ≤ text.length := by
  have hlen : kwd.length ≤ text.length - i := by
    have hh := congrArg List.length h
    simp only [List.length_take, List.length_drop] at hh
    omega
  refine ⟨?_, by omega⟩
  conv_lhs => rw [← List.take_append_drop i text]
  rw [List.append_assoc]
  congr 1
  conv_lhs => rw [← List.take_append_drop kwd.length (text.drop i)]
  rw [h, List.drop_drop, Nat.add_comm]

/-- The character just before position `i` of the text is the last character
of `text.take i`. -/
theorem getLast_take (text : Str) (i : Nat) (h0 : 0 < i) (hi : i ≤ text.length) :
    (text.take i).getLast? = text[i - 1]? := by
  rw [List.getLast?_eq_getElem?, List.length_take, Nat.min_eq_left hi]
  exact List.getElem?_take_of_lt (by omega)

/-- The positional word-boundary search of the code agrees with the
decomposition reading of the spec: the keyword occurs somewhere in the blob
bounded on both sides by a non-word character or a string edge. -/
theorem hasWholeWord_iff (kwd text : Str) :
    hasWholeWord kwd text = true ↔ SpecWholeWord kwd text := by
  unfold hasWholeWord SpecWholeWord wordMatchAt
  rw [List.any_eq_true]
  constructor
  · rintro ⟨i, hmem, hmatch⟩
    rw [List.mem_range] at hmem
    simp only [Bool.and_eq_true, Bool.or_eq_true, beq_iff_eq, Bool.not_eq_true'] at hmatch
    obtain ⟨⟨hm, hleft⟩, hright⟩ := hmatch
    rw [matchAt_eq] at hm
    obtain ⟨hdec, hbound⟩ := decomp_of_matchAt kwd text i (by omega) hm
    refine ⟨text.take i, text.drop (i + kwd.length), hdec, ?_, ?_⟩
    · intro c hc
      by_cases hi0 : i = 0
      · rw [hi0] at hc
        simp at hc
      · rcases hleft with h0 | hw
        · exact absurd h0 hi0
        · rw [getLast_take text i (by omega) (by omega)] at hc
          have hgd : text.getD (i - 1) ' ' = c := by
            rw [List.getD_eq_getElem?_getD, hc]
            rfl
          rw [← hgd]
          exact hw
    · intro c hc
      rw [List.head?_drop] at hc
      rcases hright with h0 | hw
      · rw [List.getElem?_eq_none_iff.mpr (by omega)] at hc
        cases hc
      · have hgd : text.getD (i + kwd.length) ' ' = c := by
          rw [List.getD_eq_getElem?_getD, hc]
          rfl
        rw [← hgd]
        exact hw
  · rintro ⟨pre, post, hdec, hleft, hright⟩
    have hlen : text.length = pre.length + kwd.length + post.length := by
      rw [hdec]
      simp [List.length_append]
      omega
    refine ⟨pre.length, by rw [List.mem_range]; omega, ?_⟩
    simp only [Bool.and_eq_true, Bool.or_eq_true, beq_iff_eq, Bool.not_eq_true']
    have hdrop : text.drop pre.length = kwd ++ post := by
      rw [hdec, List.append_assoc, List.drop_left]
    refine ⟨⟨?_, ?_⟩, ?_⟩
    · rw [matchAt_eq, hdrop, List.take_left]
    · cases hpre : pre.getLast? with
      | none =>
        left
        rw [List.getLast?_eq_none_iff.1 hpre]
        rfl
      | some c =>
        right
        have hpos : 0 < pre.length := by
          cases pre
          · cases hpre
          · simp
        have hg : text[pre.length - 1]? = some c := by
          rw [hdec, List.append_assoc, List.getElem?_append_left (by omega),
            ← List.getLast?_eq_getElem?]
          exact hpre
        rw [List.getD_eq_getElem?_getD, hg]
        exact hleft c hpre
    · cases hpost : post.head? with
      | none =>
        left
        rw [List.head?_eq_none_iff.1 hpost] at hlen
        simp at hlen
        omega
      | some c =>
        right
        have hg : text[pre.length + kwd.length]? = some c := by
          rw [hdec, List.getElem?_append_right (by rw [List.length_append])]
          rw [List.length_append, Nat.sub_self, ← List.head?_eq_getElem?]
          exact hpost
        rw [List.getD_eq_getElem?_getD, hg]
        exact hright c hpost

/-- The positional substring search of the code agrees with the
decomposition reading of the spec: the keyword occurs as a bare substring. -/
theorem hasSub_iff (kwd text : Str) :
    hasSub kwd text = true ↔ SpecSub kwd text := by
  unfold hasSub SpecSub
  rw [List.any_eq_true]
  constructor
  · rintro ⟨i, hmem, hm⟩
    rw [List.mem_range] at hmem
    rw [matchAt_eq] at hm
    obtain ⟨hdec, _⟩ := decomp_of_matchAt kwd text i (by omega) hm
    exact ⟨_, _, hdec⟩
  · rintro ⟨pre, post, hdec⟩
    have hlen : text.length = pre.length + kwd.length + post.length := by
      rw [hdec]
      simp [List.length_append]
      omega
    refine ⟨pre.length, by rw [List.mem_range]; omega, ?_⟩
    rw [matchAt_eq, hdec, List.append_assoc, List.drop_left, List.take_left]

instance (kwd text : Str) : Decidable (SpecWholeWord kwd text) :=
  decidable_of_iff _ (hasWholeWord_iff kwd text)

instance (kwd text : Str) : Decidable (SpecSub kwd text) :=
  decidable_of_iff _ (hasSub_iff kwd text)

/-- A keyword's contribution, read through the spec's predicates: 2 for a
whole-word occurrence, else 1 for a substring occurrence, else 0, the
whole-word check taking priority — so each keyword contributes at most once.
-/
theorem keywordScore_spec (text kwd : Str) :
    keywordScore text kwd
      = if SpecWholeWord kwd text then 2 else if SpecSub kwd text then 1 else 0 := by
  unfold keywordScore
  by_cases h1 : SpecWholeWord kwd text
  · rw [if_pos ((hasWholeWord_iff kwd text).2 h1), if_pos h1]
  · rw [if_neg (fun hb => h1 ((hasWholeWord_iff kwd text).1 hb)), if_neg h1]
    by_cases h2 : SpecSub kwd text
    · rw [if_pos ((hasSub_iff kwd text).2 h2), if_pos h2]
    · rw [if_neg (fun hb => h2 ((hasSub_iff kwd text).1 hb)), if_neg h2]

/-- The score-accumulating fold is a sum over the keyword list. -/
theorem foldl_add_eq_sum (f : Str → Nat) (l : List Str) (n : Nat) :
    l.foldl (fun s k => s + f k) n = n + (l.map f).sum := by
  induction l generalizing n with
  | nil => simp
  | cons k rest ih =>
    rw [List.foldl_cons, ih]
    simp [List.sum_cons]
    omega

/-- The raw package of the spec's scenario: name `@org/hilog`, description
`logging utility for apps`, no keywords. -/
def hilogPkg : APackage :=
  ⟨kw "@org/hilog", kw "logging utility for apps", KwField.klist []⟩

/-- C5: a category's score is the sum, over its keywords, of 2 for a
whole-word occurrence in the blob (bounded by non-word characters or string
edges), else 1 for a bare substring occurrence, else 0 — each keyword
contributing at most once with whole-word priority; and on the scenario
package `@org/hilog` with description `logging utility for apps` the
utilities category scores exactly 2. -/
theorem category_score_spec :
    (∀ (text : Str) (kws : List Str),
        categoryScore kws text
          = (kws.map fun kwd =>
              if SpecWholeWord kwd text then 2
              else if SpecSub kwd text then 1 else 0).sum)
    ∧ categoryScore utilities_category.keywords (extract_text_features hilogPkg) = 2 := by
  constructor
  · intro text kws
    unfold categoryScore
    rw [foldl_add_eq_sum (keywordScore text) kws 0, Nat.zero_add]
    congr 1
    exact List.map_congr_left fun kwd _ => keywordScore_spec text kwd
  · decide

/-! ## The searchable text blob (C8) -/

/-- Lower-casing never produces or destroys a slash. -/
theorem lowerChar_beq_slash (c : Char) : (lowerChar c == '/') = (c == '/') := by
  unfold lowerChar
  split <;> simp_all

/-- Lower-casing never produces or destroys an at-sign. -/
theorem lowerChar_beq_at (c : Char) : (lowerChar c == '@') = (c == '@') := by
  unfold lowerChar
  split <;> simp_all

/-- Mapping preserves emptiness. -/
theorem isEmpty_map (f : Char → Char) (l : List Char) : (l.map f).isEmpty = l.isEmpty := by
  cases l <;> rfl

/-- Lower-casing the name and stripping the organization prefix commute:
the prefix is delimited by `@` and `/`, which lower-casing fixes. -/
theorem toLowerStr_stripOrg (s : Str) : toLowerStr (stripOrg s) = stripOrg (toLowerStr s) := by
  have hpred : ((fun x => !(x == '/')) ∘ lowerChar) = (fun x : Char => !(x == '/')) := by
    funext x
    simp only [Function.comp]
    rw [lowerChar_beq_slash]
  cases s with
  | nil => rfl
  | cons c rest =>
    show toLowerStr (stripOrg (c :: rest)) = stripOrg (lowerChar c :: rest.map lowerChar)
    by_cases hc : c = '@'
    · subst hc
      show toLowerStr
            (if ('@' : Char) = '@' then
              match rest.dropWhile (fun x => !(x == '/')) with
              | _ :: tail =>
                if (rest.takeWhile (fun x => !(x == '/'))).isEmpty then '@' :: rest else tail
              | [] => '@' :: rest
            else '@' :: rest)
          = if lowerChar '@' = '@' then
              match (rest.map lowerChar).dropWhile (fun x => !(x == '/')) with
              | _ :: tail =>
                if ((rest.map lowerChar).takeWhile (fun x => !(x == '/'))).isEmpty then
                  lowerChar '@' :: rest.map lowerChar
                else tail
              | [] => lowerChar '@' :: rest.map lowerChar
            else lowerChar '@' :: rest.map lowerChar
      rw [if_pos rfl, if_pos (show lowerChar '@' = '@' from rfl)]
      rw [List.dropWhile_map, List.takeWhile_map, hpred]
      cases hdw : rest.dropWhile (fun x => !(x == '/')) with
      | nil => rfl
      | cons d tail =>
        simp only [List.map_cons]
        rw [isEmpty_map]
        by_cases he : (rest.takeWhile (fun x => !(x == '/'))).isEmpty
        · rw [if_pos he, if_pos he]
          rfl
        · rw [if_neg he, if_neg he]
          rfl
    · have hc' : ¬ lowerChar c = '@' := by
        intro h
        apply hc
        have hb : (lowerChar c == '@') = true := by
          rw [h]
          rfl
        rw [lowerChar_beq_at] at hb
        exact beq_iff_eq.1 hb
      show toLowerStr
            (if c = '@' then
              match rest.dropWhile (fun x => !(x == '/')) with
              | _ :: tail =>
                if (rest.takeWhile (fun x => !(x == '/'))).isEmpty then c :: rest else tail
              | [] => c :: rest
            else c :: rest)
          = if lowerChar c = '@' then
              match (rest.map lowerChar).dropWhile (fun x => !(x == '/')) with
              | _ :: tail =>
                if ((rest.map lowerChar).takeWhile (fun x => !(x == '/'))).isEmpty then
                  lowerChar c :: rest.map lowerChar
                else tail
              | [] => lowerChar c :: rest.map lowerChar
            else lowerChar c :: rest.map lowerChar
      rw [if_neg hc, if_neg hc']
      rfl

/-- C8: the searchable text blob the code builds equals the blob worded from
the spec — the lowercased name with any `@org/`-style prefix stripped,
concatenated with the lowercased description and any keyword fields (each
keyword lowercased), joined by spaces. -/
theorem extract_text_features_spec (p : APackage) :
    extract_text_features p = specTextBlob p := by
  simp only [extract_text_features, specTextBlob]
  rw [toLowerStr_stripOrg]
